import Mathlib

/-!
Verification of the resilient email sending service (emailservice.js).

The JavaScript class EmailService is embedded shallowly:

* Provider behaviour is abstracted by an oracle of type Nat → AttemptResult
  giving the outcome of the k-th provider call made by the service
  (the code treats a response with success = false by throwing, and a
  transport fault by the same catch, so one call has three possible shapes).
* Time is abstracted by a clock of type Nat → Nat giving the value of the
  k-th Date.now() reading.
* The drain loop processQueue is given explicit fuel: the JavaScript loop
  runs until the queue is empty, the fuel bounds the number of iterations
  we model; the completed flag records whether the queue was fully drained.
* Sleeps do not mutate state; the embedding records them as events
  (wait entries in the retry trace, rlSleeps entries of the drain loop).
-/

namespace EmailService

/-- Outcome of one provider call: a response with success = true, a response
with success = false (which the code converts to a thrown Error), or a
transport fault (the call itself throws). -/
inductive AttemptResult where
  | ok
  | rejected (msg : String)
  | fault (msg : String)
deriving Repr, DecidableEq

/-- True exactly when the provider call returned a response with
success = true (line 75 of emailservice.js). -/
def AttemptResult.isOk : AttemptResult → Bool
  | .ok => true
  | _ => false

/-- The record shape { success, message } returned by trySendWithRetries
and stored in this.status. -/
structure TryResult where
  success : Bool
  message : String
deriving Repr, DecidableEq

/-- One observable event of the retry loop: a provider call (recording the
provider index used) or a backoff sleep (recording the milliseconds). -/
inductive TryEvent where
  | call (providerIdx : Nat)
  | wait (ms : Nat)
deriving Repr, DecidableEq

/-- Result of trySendWithRetries together with its event trace and the
value of this.currentProviderIndex when it returns. -/
structure TryOutcome where
  result : TryResult
  trace : List TryEvent
  cursorAfter : Nat
deriving Repr, DecidableEq

/-- Provider indices of the calls in a trace, in order. -/
def TryOutcome.calls (t : TryOutcome) : List Nat :=
  t.trace.filterMap fun e =>
    match e with
    | .call i => some i
    | .wait _ => none

/-- Backoff sleeps of a trace, in order, in milliseconds. -/
def TryOutcome.waits (t : TryOutcome) : List Nat :=
  t.trace.filterMap fun e =>
    match e with
    | .call _ => none
    | .wait w => some w

/-- switchProvider (lines 96-99): this.currentProviderIndex becomes the
successor modulo the number of providers. -/
def switchProvider (numProviders idx : Nat) : Nat :=
  (idx + 1) % numProviders

/-- The while loop of trySendWithRetries (lines 67-94).  The loop guard is
attempt < maxRetries exactly as in the source; gas is structural fuel kept
equal to maxRetries - attempt by the wrapper (when it reaches 0 the guard
is false as well, and the fallthrough return fires).  Each iteration reads
the cursor, consumes one oracle value; on a response with success = true it
returns the success record; otherwise attempt is incremented and either a
backoff sleep of 2 ^ attempt * 100 ms is recorded (attempt < maxRetries)
or switchProvider runs and the loop exits returning the failure record. -/
def trySendLoop (maxRetries numProviders : Nat) (oracle : Nat → AttemptResult) :
    Nat → Nat → Nat → Nat → TryOutcome
  | 0, _, cursor, _ =>
      { result := { success := false, message := "All attempts failed." }
        trace := []
        cursorAfter := cursor }
  | gas + 1, attempt, cursor, callIdx =>
      if attempt < maxRetries then
        if (oracle callIdx).isOk then
          { result := { success := true, message := "Email sent successfully." }
            trace := [.call cursor]
            cursorAfter := cursor }
        else
          if attempt + 1 < maxRetries then
            let backoffTime := 2 ^ (attempt + 1) * 100
            let rest := trySendLoop maxRetries numProviders oracle gas (attempt + 1) cursor (callIdx + 1)
            { result := rest.result
              trace := .call cursor :: .wait backoffTime :: rest.trace
              cursorAfter := rest.cursorAfter }
          else
            let cursor2 := switchProvider numProviders cursor
            let rest := trySendLoop maxRetries numProviders oracle gas (attempt + 1) cursor2 (callIdx + 1)
            { result := rest.result
              trace := .call cursor :: rest.trace
              cursorAfter := rest.cursorAfter }
      else
        { result := { success := false, message := "All attempts failed." }
          trace := []
          cursorAfter := cursor }

/-- trySendWithRetries(emailId, emailDetails): runs the loop from
attempt = 0 with the current cursor, consuming oracle values from callIdx. -/
def trySendWithRetries (maxRetries numProviders : Nat) (oracle : Nat → AttemptResult)
    (cursor callIdx : Nat) : TryOutcome :=
  trySendLoop maxRetries numProviders oracle maxRetries 0 cursor callIdx

/-- Length of the initial run of failing oracle values starting at callIdx,
capped at bound; the number of consecutive failed provider calls. -/
def failStreak (oracle : Nat → AttemptResult) : Nat → Nat → Nat
  | _, 0 => 0
  | callIdx, bound + 1 =>
      if (oracle callIdx).isOk then 0 else failStreak oracle (callIdx + 1) bound + 1

example :
    trySendWithRetries 3 2 (fun _ => .ok) 0 0 =
      { result := { success := true, message := "Email sent successfully." }
        trace := [.call 0], cursorAfter := 0 } := by decide

example :
    trySendWithRetries 3 2 (fun _ => .fault "boom") 0 5 =
      { result := { success := false, message := "All attempts failed." }
        trace := [.call 0, .wait 200, .call 0, .wait 400, .call 0], cursorAfter := 1 } := by
  decide

example :
    trySendWithRetries 2 3 (fun k => if k = 0 then .rejected "no" else .ok) 1 0 =
      { result := { success := true, message := "Email sent successfully." }
        trace := [.call 1, .wait 200, .call 1], cursorAfter := 1 } := by decide

/-- Construction-time configuration of EmailService (constructor, lines
16-25): the ordered provider list (only the names matter here, behaviour is
the oracle), maxRetries (source default 3) and rateLimit (source default 5,
maximum emails per minute). -/
structure Config where
  providers : List String
  maxRetries : Nat
  rateLimit : Nat
deriving Repr, DecidableEq

/-- Mutable fields of EmailService: the provider cursor, the status table
(assoc list, most recent write first), the sentEmails set (as a duplicate
free list), the FIFO queue of (emailId, emailDetails) pairs, and the ledger
of recent successful send timestamps. -/
structure ServiceState where
  currentProviderIndex : Nat
  status : List (String × TryResult)
  sentEmails : List String
  emailQueue : List (String × String)
  lastSentTimestamps : List Nat
deriving Repr, DecidableEq

/-- State installed by the constructor (lines 16-25): cursor 0, empty
status table, empty sentEmails set, empty queue, empty ledger. -/
def initState : ServiceState :=
  { currentProviderIndex := 0
    status := []
    sentEmails := []
    emailQueue := []
    lastSentTimestamps := [] }

/-- statusOf: read accessor of this.status; an assoc list where the most
recent write for an id shadows older ones. -/
def statusOf (s : ServiceState) (emailId : String) : Option TryResult :=
  s.status.lookup emailId

/-- Record of how one queue entry was resolved by the drain loop: its id,
the cursor value when its processing began, the full TryOutcome, and the
Date.now() value pushed onto the ledger if it succeeded. -/
structure Resolution where
  emailId : String
  startCursor : Nat
  outcome : TryOutcome
  sentAt : Option Nat
deriving Repr, DecidableEq

/-- Result of running processQueue: final state, next unconsumed oracle
index and clock index, the resolutions in processing order, the rate-limit
sleeps performed (each 1000 ms), and whether the queue fully drained. -/
structure DrainOut where
  final : ServiceState
  callIdxOut : Nat
  clockIdxOut : Nat
  res : List Resolution
  rlSleeps : List Nat
  completed : Bool
deriving Repr, DecidableEq

/-- The drain loop processQueue (lines 38-65).  Each iteration with a non
empty queue reads now = Date.now(), reassigns this.lastSentTimestamps to
the entries with now - timestamp < 60000, and if their number has reached
rateLimit sleeps 1000 ms and retries the iteration; otherwise it shifts the
head entry, runs trySendWithRetries, and on success adds the id to
sentEmails and pushes a fresh Date.now() onto the ledger, in all cases
writing the outcome into this.status.  fuel bounds the number of
iterations modelled; the JavaScript loop runs until the queue empties. -/
def processQueue (cfg : Config) (oracle : Nat → AttemptResult) (clock : Nat → Nat) :
    Nat → ServiceState → Nat → Nat → DrainOut
  | 0, s, callIdx, clockIdx =>
      { final := s, callIdxOut := callIdx, clockIdxOut := clockIdx
        res := [], rlSleeps := [], completed := s.emailQueue.isEmpty }
  | fuel + 1, s, callIdx, clockIdx =>
      match s.emailQueue with
      | [] =>
          { final := s, callIdxOut := callIdx, clockIdxOut := clockIdx
            res := [], rlSleeps := [], completed := true }
      | (emailId, _) :: restQueue =>
          let now := clock clockIdx
          let pruned := s.lastSentTimestamps.filter fun timestamp => now - timestamp < 60000
          if pruned.length ≥ cfg.rateLimit then
            let out := processQueue cfg oracle clock fuel
              { s with lastSentTimestamps := pruned } callIdx (clockIdx + 1)
            { out with rlSleeps := 1000 :: out.rlSleeps }
          else
            let outcome := trySendWithRetries cfg.maxRetries cfg.providers.length oracle
              s.currentProviderIndex callIdx
            let callIdx2 := callIdx + outcome.calls.length
            if outcome.result.success then
              let sentTime := clock (clockIdx + 1)
              let s2 : ServiceState :=
                { currentProviderIndex := outcome.cursorAfter
                  status := (emailId, outcome.result) :: s.status
                  sentEmails := s.sentEmails.insert emailId
                  emailQueue := restQueue
                  lastSentTimestamps := pruned ++ [sentTime] }
              let out := processQueue cfg oracle clock fuel s2 callIdx2 (clockIdx + 2)
              { out with
                res := { emailId := emailId, startCursor := s.currentProviderIndex
                         outcome := outcome, sentAt := some sentTime } :: out.res }
            else
              let s2 : ServiceState :=
                { currentProviderIndex := outcome.cursorAfter
                  status := (emailId, outcome.result) :: s.status
                  sentEmails := s.sentEmails
                  emailQueue := restQueue
                  lastSentTimestamps := pruned }
              let out := processQueue cfg oracle clock fuel s2 callIdx2 (clockIdx + 1)
              { out with
                res := { emailId := emailId, startCursor := s.currentProviderIndex
                         outcome := outcome, sentAt := none } :: out.res }

/-- sendEmail(emailId, emailDetails) (lines 27-36): if the id is in
sentEmails, return the duplicate-prevented record immediately, touching
nothing; otherwise push the message onto the queue and return
this.processQueue() — whose value is undefined (the while loop has no
return), modelled by none in the first component. -/
def sendEmail (cfg : Config) (oracle : Nat → AttemptResult) (clock : Nat → Nat)
    (fuel : Nat) (s : ServiceState) (callIdx clockIdx : Nat)
    (emailId emailDetails : String) : Option TryResult × DrainOut :=
  if emailId ∈ s.sentEmails then
    (some { success := true, message := "Duplicate email prevented." },
      { final := s, callIdxOut := callIdx, clockIdxOut := clockIdx
        res := [], rlSleeps := [], completed := s.emailQueue.isEmpty })
  else
    let s2 := { s with emailQueue := s.emailQueue ++ [(emailId, emailDetails)] }
    (none, processQueue cfg oracle clock fuel s2 callIdx clockIdx)

example :
    (processQueue { providers := ["p1", "p2"], maxRetries := 3, rateLimit := 5 }
        (fun _ => .ok) (fun i => i) 2
        { initState with emailQueue := [("m1", "x")] } 0 0).res =
      [{ emailId := "m1", startCursor := 0
         outcome := { result := { success := true, message := "Email sent successfully." }
                      trace := [.call 0], cursorAfter := 0 }
         sentAt := some 1 }] := by decide

example :
    (sendEmail { providers := ["p1"], maxRetries := 3, rateLimit := 5 }
        (fun _ => .ok) (fun i => i) 2 initState 0 0 "m1" "x").1 = none := by decide

example :
    (sendEmail { providers := ["p1"], maxRetries := 3, rateLimit := 5 }
        (fun _ => .ok) (fun i => i) 2
        { initState with sentEmails := ["m1"] } 0 0 "m1" "x").1 =
      some { success := true, message := "Duplicate email prevented." } := by decide

/-! Closed forms for the retry loop, by induction on the structural fuel
(kept equal to maxRetries - attempt along every run from the wrapper). -/

theorem trySendLoop_result (mr N : Nat) (o : Nat → AttemptResult) :
    ∀ gas attempt cursor ci, mr - attempt = gas →
      (trySendLoop mr N o gas attempt cursor ci).result =
        if failStreak o ci gas < gas then
          { success := true, message := "Email sent successfully." }
        else { success := false, message := "All attempts failed." } := by
  intro gas
  induction gas with
  | zero =>
      intro attempt cursor ci h
      simp [trySendLoop, failStreak]
  | succ g ih =>
      intro attempt cursor ci h
      have hlt : attempt < mr := by omega
      by_cases hok : (o ci).isOk
      · simp [trySendLoop, hlt, hok, failStreak]
      · by_cases hlt2 : attempt + 1 < mr
        · have hg : mr - (attempt + 1) = g := by omega
          have := ih (attempt + 1) cursor (ci + 1) hg
          simp [trySendLoop, hlt, hok, hlt2, failStreak, this, Nat.add_lt_add_iff_right]
        · have hg : g = 0 := by omega
          subst hg
          simp [trySendLoop, hlt, hok, hlt2, failStreak]

theorem trySendLoop_calls (mr N : Nat) (o : Nat → AttemptResult) :
    ∀ gas attempt cursor ci, mr - attempt = gas →
      (trySendLoop mr N o gas attempt cursor ci).calls =
        List.replicate (min (failStreak o ci gas + 1) gas) cursor := by
  intro gas
  induction gas with
  | zero =>
      intro attempt cursor ci h
      simp [trySendLoop, failStreak, TryOutcome.calls]
  | succ g ih =>
      intro attempt cursor ci h
      have hlt : attempt < mr := by omega
      by_cases hok : (o ci).isOk
      · simp [trySendLoop, hlt, hok, failStreak, TryOutcome.calls]
      · by_cases hlt2 : attempt + 1 < mr
        · have hg : mr - (attempt + 1) = g := by omega
          have := ih (attempt + 1) cursor (ci + 1) hg
          simp only [TryOutcome.calls] at this ⊢
          simp [trySendLoop, hlt, hok, hlt2, failStreak, this, Nat.succ_min_succ,
            List.replicate_succ]
        · have hg : g = 0 := by omega
          subst hg
          simp [trySendLoop, hlt, hok, hlt2, failStreak, TryOutcome.calls]

theorem trySendLoop_waits (mr N : Nat) (o : Nat → AttemptResult) :
    ∀ gas attempt cursor ci, mr - attempt = gas →
      (trySendLoop mr N o gas attempt cursor ci).waits =
        (List.range (min (failStreak o ci gas) (gas - 1))).map
          (fun i => 2 ^ (attempt + 1 + i) * 100) := by
  intro gas
  induction gas with
  | zero =>
      intro attempt cursor ci h
      simp [trySendLoop, failStreak, TryOutcome.waits]
  | succ g ih =>
      intro attempt cursor ci h
      have hlt : attempt < mr := by omega
      by_cases hok : (o ci).isOk
      · simp [trySendLoop, hlt, hok, failStreak, TryOutcome.waits]
      · by_cases hlt2 : attempt + 1 < mr
        · have hg : mr - (attempt + 1) = g := by omega
          have hgpos : 1 ≤ g := by omega
          have hrec := ih (attempt + 1) cursor (ci + 1) hg
          simp only [TryOutcome.waits] at hrec ⊢
          simp only [trySendLoop, hlt, hok, hlt2, failStreak, if_true, if_neg, if_pos,
            Bool.false_eq_true, ite_true, ite_false]
          simp [hok, hlt2, hrec]
          have hmin : min (failStreak o (ci + 1) g + 1) g =
              min (failStreak o (ci + 1) g) (g - 1) + 1 := by omega
          rw [hmin, List.range_succ_eq_map]
          simp only [List.map_cons, List.map_map, Nat.add_zero]
          congr 1
          apply List.map_congr_left
          intro i _
          simp only [Function.comp_apply]
          have hexp : attempt + 1 + 1 + i = attempt + 1 + Nat.succ i := by omega
          rw [hexp]
        · have hg : g = 0 := by omega
          subst hg
          simp [trySendLoop, hlt, hok, hlt2, failStreak, TryOutcome.waits]

theorem trySendLoop_cursorAfter (mr N : Nat) (o : Nat → AttemptResult) :
    ∀ gas attempt cursor ci, mr - attempt = gas →
      (trySendLoop mr N o gas attempt cursor ci).cursorAfter =
        if failStreak o ci gas < gas then cursor
        else if gas = 0 then cursor else switchProvider N cursor := by
  intro gas
  induction gas with
  | zero =>
      intro attempt cursor ci h
      simp [trySendLoop, failStreak]
  | succ g ih =>
      intro attempt cursor ci h
      have hlt : attempt < mr := by omega
      by_cases hok : (o ci).isOk
      · simp [trySendLoop, hlt, hok, failStreak]
      · by_cases hlt2 : attempt + 1 < mr
        · have hg : mr - (attempt + 1) = g := by omega
          have hgpos : 1 ≤ g := by omega
          have hrec := ih (attempt + 1) cursor (ci + 1) hg
          have hgne : g ≠ 0 := by omega
          simp [trySendLoop, hlt, hok, hlt2, failStreak, hrec, Nat.add_lt_add_iff_right, hgne]
        · have hg : g = 0 := by omega
          subst hg
          simp [trySendLoop, hlt, hok, hlt2, failStreak]

theorem trySendWithRetries_result (mr N : Nat) (o : Nat → AttemptResult) (cursor ci : Nat) :
    (trySendWithRetries mr N o cursor ci).result =
      if failStreak o ci mr < mr then
        { success := true, message := "Email sent successfully." }
      else { success := false, message := "All attempts failed." } :=
  trySendLoop_result mr N o mr 0 cursor ci (Nat.sub_zero mr)

theorem trySendWithRetries_calls (mr N : Nat) (o : Nat → AttemptResult) (cursor ci : Nat) :
    (trySendWithRetries mr N o cursor ci).calls =
      List.replicate (min (failStreak o ci mr + 1) mr) cursor :=
  trySendLoop_calls mr N o mr 0 cursor ci (Nat.sub_zero mr)

theorem trySendWithRetries_waits (mr N : Nat) (o : Nat → AttemptResult) (cursor ci : Nat) :
    (trySendWithRetries mr N o cursor ci).waits =
      (List.range (min (failStreak o ci mr) (mr - 1))).map (fun i => 2 ^ (1 + i) * 100) := by
  have h := trySendLoop_waits mr N o mr 0 cursor ci (Nat.sub_zero mr)
  simpa using h

theorem trySendWithRetries_cursorAfter (mr N : Nat) (o : Nat → AttemptResult) (cursor ci : Nat) :
    (trySendWithRetries mr N o cursor ci).cursorAfter =
      if failStreak o ci mr < mr then cursor
      else if mr = 0 then cursor else switchProvider N cursor :=
  trySendLoop_cursorAfter mr N o mr 0 cursor ci (Nat.sub_zero mr)

/-- The retry loop only inspects whether each provider call succeeded: two
oracles agreeing on success of every call give identical outcomes. -/
theorem trySendLoop_congr (mr N : Nat) (o1 o2 : Nat → AttemptResult)
    (hoo : ∀ k, (o1 k).isOk = (o2 k).isOk) :
    ∀ gas attempt cursor ci,
      trySendLoop mr N o1 gas attempt cursor ci = trySendLoop mr N o2 gas attempt cursor ci := by
  intro gas
  induction gas with
  | zero => intro attempt cursor ci; simp [trySendLoop]
  | succ g ih =>
      intro attempt cursor ci
      by_cases hmr : attempt < mr
      · by_cases hok : (o2 ci).isOk
        · simp [trySendLoop, hmr, hoo ci, hok]
        · by_cases h2 : attempt + 1 < mr <;>
            simp [trySendLoop, hmr, hoo ci, hok, h2, ih]
      · simp [trySendLoop, hmr]

theorem trySendLoop_cursorAfter_lt (mr N : Nat) (o : Nat → AttemptResult) (hN : 0 < N) :
    ∀ gas attempt cursor ci, cursor < N →
      (trySendLoop mr N o gas attempt cursor ci).cursorAfter < N := by
  intro gas
  induction gas with
  | zero => intro attempt cursor ci hc; simpa [trySendLoop] using hc
  | succ g ih =>
      intro attempt cursor ci hc
      by_cases hmr : attempt < mr
      · by_cases hok : (o ci).isOk
        · simpa [trySendLoop, hmr, hok] using hc
        · by_cases h2 : attempt + 1 < mr
          · simpa [trySendLoop, hmr, hok, h2] using ih (attempt + 1) cursor (ci + 1) hc
          · have hsw : switchProvider N cursor < N := Nat.mod_lt _ hN
            simpa [trySendLoop, hmr, hok, h2] using
              ih (attempt + 1) (switchProvider N cursor) (ci + 1) hsw
      · simpa [trySendLoop, hmr] using hc

/-- Once attempt has reached maxRetries the loop guard is false and the
failure record is returned with no further provider call. -/
theorem trySendLoop_stopped (mr N : Nat) (o : Nat → AttemptResult) :
    ∀ gas attempt cursor ci, mr ≤ attempt →
      trySendLoop mr N o gas attempt cursor ci =
        { result := { success := false, message := "All attempts failed." }
          trace := [], cursorAfter := cursor } := by
  intro gas
  cases gas with
  | zero => intro attempt cursor ci h; simp [trySendLoop]
  | succ g => intro attempt cursor ci h; simp [trySendLoop, Nat.not_lt.mpr h]

/-- Every provider call of one run of the retry loop uses the cursor the
run began with: the cursor is not advanced between attempts. -/
theorem trySendLoop_calls_mem (mr N : Nat) (o : Nat → AttemptResult) :
    ∀ gas attempt cursor ci,
      ∀ x ∈ (trySendLoop mr N o gas attempt cursor ci).calls, x = cursor := by
  intro gas
  induction gas with
  | zero => intro attempt cursor ci x hx; simp [trySendLoop, TryOutcome.calls] at hx
  | succ g ih =>
      intro attempt cursor ci x hx
      by_cases hmr : attempt < mr
      · by_cases hok : (o ci).isOk
        · simp [trySendLoop, hmr, hok, TryOutcome.calls] at hx
          exact hx
        · by_cases h2 : attempt + 1 < mr
          · simp [trySendLoop, hmr, hok, h2, TryOutcome.calls] at hx
            rcases hx with hx | hx
            · exact hx
            · exact ih (attempt + 1) cursor (ci + 1) x (by simpa [TryOutcome.calls] using hx)
          · simp [trySendLoop, hmr, hok, h2, TryOutcome.calls,
              trySendLoop_stopped mr N o g (attempt + 1) (switchProvider N cursor) (ci + 1)
                (by omega)] at hx
            exact hx
      · simp [trySendLoop_stopped mr N o (g + 1) attempt cursor ci (Nat.not_lt.mp hmr),
          TryOutcome.calls] at hx

/-- The start cursors of successive resolutions are chained: each message
begins at the cursor the previous message left behind, and the final state
holds the cursor left by the last message. -/
def Chained (c : Nat) : List Resolution → Nat → Prop
  | [], cEnd => cEnd = c
  | r :: rs, cEnd => r.startCursor = c ∧ Chained r.outcome.cursorAfter rs cEnd

set_option maxRecDepth 8000 in
/-- Master invariant of the drain loop, by induction on the fuel:
the start cursors of the resolutions are chained from the initial cursor to
the final one; every resolution is a genuine trySendWithRetries outcome
begun at its start cursor, with a ledger timestamp exactly when it
succeeded; when the drain completes, the resolutions are exactly the queue
entries in FIFO order and the queue empties; the status table receives one
write per resolution in processing order; sentEmails becomes the initial
set plus the ids of the successful resolutions; every rate-limit sleep is
1000 ms; and when the provider list is non empty the cursor stays in
bounds. -/
theorem processQueue_spec (cfg : Config) (o : Nat → AttemptResult) (clock : Nat → Nat) :
    ∀ fuel s callIdx clockIdx out, out = processQueue cfg o clock fuel s callIdx clockIdx →
      Chained s.currentProviderIndex out.res out.final.currentProviderIndex ∧
      (∀ r ∈ out.res,
        (∃ j, r.outcome = trySendWithRetries cfg.maxRetries cfg.providers.length o r.startCursor j) ∧
        r.sentAt.isSome = r.outcome.result.success) ∧
      (out.completed = true → out.res.map Resolution.emailId = s.emailQueue.map Prod.fst) ∧
      out.final.status = (out.res.map (fun r => (r.emailId, r.outcome.result))).reverse ++ s.status ∧
      (∀ x, x ∈ out.final.sentEmails ↔
        x ∈ s.sentEmails ∨ ∃ r ∈ out.res, r.emailId = x ∧ r.outcome.result.success = true) ∧
      (out.completed = true → out.final.emailQueue = []) ∧
      (∀ d ∈ out.rlSleeps, d = 1000) ∧
      (0 < cfg.providers.length → s.currentProviderIndex < cfg.providers.length →
        out.final.currentProviderIndex < cfg.providers.length ∧
        ∀ r ∈ out.res, r.startCursor < cfg.providers.length) := by
  intro fuel
  induction fuel with
  | zero =>
      intro s ci ti out hout
      subst hout
      refine ⟨rfl, ?_, ?_, ?_, ?_, ?_, ?_, ?_⟩ <;>
        simp [processQueue, List.isEmpty_iff]
  | succ f ih =>
      intro s ci ti out hout
      obtain ⟨cur, st, sent, q, ledger⟩ := s
      rcases q with _ | ⟨⟨id, d⟩, rest⟩
      · subst hout
        refine ⟨rfl, ?_, ?_, ?_, ?_, ?_, ?_, ?_⟩ <;> simp [processQueue]
      · simp only [processQueue] at hout
        split_ifs at hout with hrl hsucc
        · -- rate-limited iteration: sleep 1000 ms, prune the ledger, retry
          obtain ⟨ih1, ih2, ih3, ih4, ih5, ih6, ih7, ih8⟩ :=
            ih ⟨cur, st, sent, (id, d) :: rest,
                List.filter (fun timestamp => decide (clock ti - timestamp < 60000)) ledger⟩
              ci (ti + 1) _ rfl
          subst hout
          refine ⟨?_, ?_, ?_, ?_, ?_, ?_, ?_, ?_⟩
          · simpa using ih1
          · simpa using ih2
          · simpa using ih3
          · simpa using ih4
          · simpa using ih5
          · simpa using ih6
          · intro x hx
            rcases (by simpa using hx : x = 1000 ∨ _) with h | h
            · exact h
            · exact ih7 x h
          · simpa using ih8
        · -- head entry resolved successfully
          obtain ⟨ih1, ih2, ih3, ih4, ih5, ih6, ih7, ih8⟩ :=
            ih ⟨(trySendWithRetries cfg.maxRetries cfg.providers.length o cur ci).cursorAfter,
                (id, (trySendWithRetries cfg.maxRetries cfg.providers.length o cur ci).result) :: st,
                sent.insert id, rest,
                List.filter (fun timestamp => decide (clock ti - timestamp < 60000)) ledger ++
                  [clock (ti + 1)]⟩
              (ci + (trySendWithRetries cfg.maxRetries cfg.providers.length o cur ci).calls.length)
              (ti + 2) _ rfl
          subst hout
          refine ⟨?_, ?_, ?_, ?_, ?_, ?_, ?_, ?_⟩
          · simpa [Chained] using ih1
          · intro r hr
            rcases (by simpa using hr) with h | h
            · subst h
              exact ⟨⟨ci, rfl⟩, hsucc.symm⟩
            · exact ih2 r h
          · intro hc
            have := ih3 (by simpa using hc)
            simpa using this
          · simpa using ih4
          · intro x
            have h5 := ih5 x
            simp only [List.mem_insert_iff] at h5
            constructor
            · intro hx
              rcases h5.mp hx with (h | h) | ⟨r, hr, hx2, hs⟩
              · exact Or.inr ⟨_, List.mem_cons_self _ _, h.symm, hsucc⟩
              · exact Or.inl h
              · exact Or.inr ⟨r, List.mem_cons_of_mem _ hr, hx2, hs⟩
            · intro hx
              rcases hx with h | ⟨r, hr, hx2, hs⟩
              · exact h5.mpr (Or.inl (Or.inr h))
              · rcases List.mem_cons.mp hr with h | h
                · subst h
                  exact h5.mpr (Or.inl (Or.inl hx2.symm))
                · exact h5.mpr (Or.inr ⟨r, h, hx2, hs⟩)
          · simpa using ih6
          · simpa using ih7
          · intro hN hcur
            have hca : (trySendWithRetries cfg.maxRetries cfg.providers.length o cur ci).cursorAfter <
                cfg.providers.length :=
              trySendLoop_cursorAfter_lt cfg.maxRetries cfg.providers.length o hN
                cfg.maxRetries 0 cur ci hcur
            obtain ⟨hf, hres⟩ := ih8 hN hca
            refine ⟨by simpa using hf, ?_⟩
            intro r hr
            rcases (by simpa using hr) with h | h
            · subst h; simpa using hcur
            · exact hres r h
        · -- head entry exhausted its retries and failed
          obtain ⟨ih1, ih2, ih3, ih4, ih5, ih6, ih7, ih8⟩ :=
            ih ⟨(trySendWithRetries cfg.maxRetries cfg.providers.length o cur ci).cursorAfter,
                (id, (trySendWithRetries cfg.maxRetries cfg.providers.length o cur ci).result) :: st,
                sent, rest,
                List.filter (fun timestamp => decide (clock ti - timestamp < 60000)) ledger⟩
              (ci + (trySendWithRetries cfg.maxRetries cfg.providers.length o cur ci).calls.length)
              (ti + 1) _ rfl
          subst hout
          refine ⟨?_, ?_, ?_, ?_, ?_, ?_, ?_, ?_⟩
          · simpa [Chained] using ih1
          · intro r hr
            rcases (by simpa using hr) with h | h
            · subst h
              refine ⟨⟨ci, rfl⟩, ?_⟩
              have hfail : (trySendWithRetries cfg.maxRetries cfg.providers.length o
                  cur ci).result.success = false := by
                simpa using hsucc
              exact hfail.symm
            · exact ih2 r h
          · intro hc
            have := ih3 (by simpa using hc)
            simpa using this
          · simpa using ih4
          · intro x
            have h5 := ih5 x
            have hfail : (trySendWithRetries cfg.maxRetries cfg.providers.length o
                cur ci).result.success = false := by
              simpa using hsucc
            constructor
            · intro hx
              rcases h5.mp hx with h | ⟨r, hr, hx2, hs⟩
              · exact Or.inl h
              · exact Or.inr ⟨r, List.mem_cons_of_mem _ hr, hx2, hs⟩
            · intro hx
              rcases hx with h | ⟨r, hr, hx2, hs⟩
              · exact h5.mpr (Or.inl h)
              · rcases List.mem_cons.mp hr with h | h
                · subst h
                  have hs2 : (trySendWithRetries cfg.maxRetries cfg.providers.length o
                      cur ci).result.success = true := hs
                  rw [hfail] at hs2
                  exact Bool.noConfusion hs2
                · exact h5.mpr (Or.inr ⟨r, h, hx2, hs⟩)
          · simpa using ih6
          · simpa using ih7
          · intro hN hcur
            have hca : (trySendWithRetries cfg.maxRetries cfg.providers.length o cur ci).cursorAfter <
                cfg.providers.length :=
              trySendLoop_cursorAfter_lt cfg.maxRetries cfg.providers.length o hN
                cfg.maxRetries 0 cur ci hcur
            obtain ⟨hf, hres⟩ := ih8 hN hca
            refine ⟨by simpa using hf, ?_⟩
            intro r hr
            rcases (by simpa using hr) with h | h
            · subst h; simpa using hcur
            · exact hres r h

/-- Number of recorded send instants falling in the sliding window
(w, w + 60000]. -/
def windowCount (history : List Nat) (w : Nat) : Nat :=
  history.countP fun x => decide (w < x ∧ x ≤ w + 60000)

/-- When a failed trySendWithRetries run exhausted its budget: the cursor
was advanced exactly once, to the successor modulo the provider count, and
every one of the maxRetries attempts was used. -/
theorem trySendWithRetries_failure (mr N : Nat) (o : Nat → AttemptResult) (cursor ci : Nat)
    (hmr : 1 ≤ mr)
    (hfail : (trySendWithRetries mr N o cursor ci).result.success = false) :
    (trySendWithRetries mr N o cursor ci).cursorAfter = (cursor + 1) % N ∧
    (trySendWithRetries mr N o cursor ci).calls.length = mr := by
  have hres := trySendWithRetries_result mr N o cursor ci
  have hstreak : ¬ failStreak o ci mr < mr := by
    intro h
    rw [hres] at hfail
    simp [h] at hfail
  constructor
  · rw [trySendWithRetries_cursorAfter]
    simp only [hstreak, if_false, ite_false]
    have : ¬ mr = 0 := by omega
    simp [this, switchProvider]
  · rw [trySendWithRetries_calls, List.length_replicate]
    omega

/-- Consecutive resolutions in a chained list: each later message starts at
the cursor its predecessor left behind. -/
theorem chained_consecutive :
    ∀ (rs : List Resolution) (c cEnd : Nat), Chained c rs cEnd →
      ∀ (k : Nat) (r r2 : Resolution), rs[k]? = some r → rs[k + 1]? = some r2 →
        r2.startCursor = r.outcome.cursorAfter := by
  intro rs
  induction rs with
  | nil =>
      intro c e _ k r r2 h1 _
      simp at h1
  | cons a l ihl =>
      intro c e h k r r2 h1 h2
      obtain ⟨ha, hc⟩ := h
      cases k with
      | zero =>
          simp only [List.getElem?_cons_zero, Option.some.injEq] at h1
          subst h1
          rcases l with _ | ⟨b, l2⟩
          · simp at h2
          · simp only [List.getElem?_cons_succ, List.getElem?_cons_zero,
              Option.some.injEq] at h2
            subst h2
            exact hc.1
      | succ k =>
          exact ihl a.outcome.cursorAfter e hc k r r2 (by simpa using h1) (by simpa using h2)

/-- Sliding-window invariant of the drain loop: if the ledger currently
holds exactly the recorded send instants younger than 60 s relative to some
past check time c, and the full history already satisfies the cap on every
window, then it still does after the drain appends the instants of its
successful sends, because each append is admitted only when fewer than
rateLimit retained instants exist. -/
theorem processQueue_rate (cfg : Config) (o : Nat → AttemptResult) (clock : Nat → Nat)
    (hmono : ∀ i j, i ≤ j → clock i ≤ clock j) :
    ∀ fuel s callIdx clockIdx hist c,
      c ≤ clock clockIdx →
      s.lastSentTimestamps = hist.filter (fun x => decide (c - x < 60000)) →
      (∀ w, windowCount hist w ≤ cfg.rateLimit) →
      ∀ w, windowCount
          (hist ++ (processQueue cfg o clock fuel s callIdx clockIdx).res.filterMap
            Resolution.sentAt) w ≤ cfg.rateLimit := by
  intro fuel
  induction fuel with
  | zero =>
      intro s ci ti hist c hc hledger hbound w
      simpa [processQueue, windowCount] using hbound w
  | succ f ih =>
      intro s ci ti hist c hc hledger hbound w
      obtain ⟨cur, st, sent, q, ledger⟩ := s
      simp only at hledger
      subst hledger
      rcases q with _ | ⟨⟨id, d⟩, rest⟩
      · simpa [processQueue, windowCount] using hbound w
      · have hff : (hist.filter (fun x => decide (c - x < 60000))).filter
            (fun x => decide (clock ti - x < 60000)) =
            hist.filter (fun x => decide (clock ti - x < 60000)) := by
          rw [List.filter_filter]
          apply List.filter_congr
          intro x _
          by_cases hx : clock ti - x < 60000
          · have hcx : c - x < 60000 := by omega
            simp [hx, hcx]
          · simp [hx]
        simp only [processQueue]
        split_ifs with hrl hsucc
        · -- rate-limited: ledger is pruned, history unchanged, recheck later
          have := ih ⟨cur, st, sent, (id, d) :: rest,
              List.filter (fun timestamp => decide (clock ti - timestamp < 60000))
                (List.filter (fun x => decide (c - x < 60000)) hist)⟩ ci (ti + 1) hist
              (clock ti) (hmono ti (ti + 1) (by omega)) hff hbound w
          simpa using this
        · -- admitted and succeeded: one instant is appended to the history
          have hnow : clock ti ≤ clock (ti + 1) := hmono ti (ti + 1) (by omega)
          have hkeep : (decide (clock ti - clock (ti + 1) < 60000)) = true := by
            simp only [decide_eq_true_eq]
            omega
          have hledger2 : (List.filter (fun x => decide (c - x < 60000)) hist).filter
                (fun x => decide (clock ti - x < 60000)) ++ [clock (ti + 1)] =
              (hist ++ [clock (ti + 1)]).filter (fun x => decide (clock ti - x < 60000)) := by
            rw [List.filter_append, hff]
            simp [hkeep]
          have hpruned : (List.filter (fun x => decide (clock ti - x < 60000))
              (List.filter (fun x => decide (c - x < 60000)) hist)).length < cfg.rateLimit := by
            omega
          have hbound2 : ∀ w2, windowCount (hist ++ [clock (ti + 1)]) w2 ≤ cfg.rateLimit := by
            intro w2
            unfold windowCount
            rw [List.countP_append]
            by_cases hin : w2 < clock (ti + 1) ∧ clock (ti + 1) ≤ w2 + 60000
            · have hsub : hist.countP (fun x => decide (w2 < x ∧ x ≤ w2 + 60000)) ≤
                  hist.countP (fun x => decide (clock ti - x < 60000)) := by
                apply List.countP_mono_left
                intro x _ hx
                simp only [decide_eq_true_eq] at hx ⊢
                omega
              rw [hff] at hpruned
              rw [← List.countP_eq_length_filter] at hpruned
              have : List.countP (fun x => decide (w2 < x ∧ x ≤ w2 + 60000)) [clock (ti + 1)] ≤ 1 := by
                simp only [List.countP_cons, List.countP_nil]
                split_ifs <;> omega
              omega
            · have : List.countP (fun x => decide (w2 < x ∧ x ≤ w2 + 60000)) [clock (ti + 1)] = 0 := by
                simp only [List.countP_cons, List.countP_nil, decide_eq_true_eq]
                simp [hin]
              rw [this]
              simpa [windowCount] using hbound w2
          have := ih ⟨(trySendWithRetries cfg.maxRetries cfg.providers.length o cur ci).cursorAfter,
              (id, (trySendWithRetries cfg.maxRetries cfg.providers.length o cur ci).result) :: st,
              sent.insert id, rest,
              (List.filter (fun x => decide (c - x < 60000)) hist).filter
                (fun x => decide (clock ti - x < 60000)) ++ [clock (ti + 1)]⟩
              (ci + (trySendWithRetries cfg.maxRetries cfg.providers.length o cur ci).calls.length)
              (ti + 2) (hist ++ [clock (ti + 1)]) (clock ti)
              (hmono ti (ti + 2) (by omega)) (by simpa using hledger2) hbound2 w
          simpa [List.append_assoc] using this
        · -- admitted and failed: no append, ledger is pruned
          have := ih ⟨(trySendWithRetries cfg.maxRetries cfg.providers.length o cur ci).cursorAfter,
              (id, (trySendWithRetries cfg.maxRetries cfg.providers.length o cur ci).result) :: st,
              sent, rest,
              (List.filter (fun x => decide (c - x < 60000)) hist).filter
                (fun x => decide (clock ti - x < 60000))⟩
              (ci + (trySendWithRetries cfg.maxRetries cfg.providers.length o cur ci).calls.length)
              (ti + 1) hist (clock ti)
              (hmono ti (ti + 1) (by omega)) (by simpa using hff) hbound w
          simpa using this


/-- C1: for every id in the sentEmails set, a subsequent sendEmail(id, p)
returns the duplicate-prevented result immediately, invokes no provider
(no resolution is produced and no oracle value is consumed), and leaves the
whole state — queue, status table, sentEmails set and send-timestamp
ledger — unchanged. -/
theorem claim1_duplicate_short_circuit (cfg : Config) (o : Nat → AttemptResult)
    (clock : Nat → Nat) (fuel : Nat) (s : ServiceState) (callIdx clockIdx : Nat)
    (emailId emailDetails : String) (h : emailId ∈ s.sentEmails) :
    sendEmail cfg o clock fuel s callIdx clockIdx emailId emailDetails =
      (some { success := true, message := "Duplicate email prevented." },
        { final := s, callIdxOut := callIdx, clockIdxOut := clockIdx
          res := [], rlSleeps := [], completed := s.emailQueue.isEmpty }) := by
  simp [sendEmail, h]

theorem claim1_witness :
    "d" ∈ (⟨0, [], ["d"], [], []⟩ : ServiceState).sentEmails ∧
    sendEmail ⟨["p1"], 3, 5⟩ (fun _ => .ok) (fun i => i) 2
        ⟨0, [], ["d"], [], []⟩ 0 0 "d" "x" =
      (some { success := true, message := "Duplicate email prevented." },
        ⟨⟨0, [], ["d"], [], []⟩, 0, 0, [], [], true⟩) :=
  ⟨by decide,
    claim1_duplicate_short_circuit ⟨["p1"], 3, 5⟩ (fun _ => .ok) (fun i => i) 2
      ⟨0, [], ["d"], [], []⟩ 0 0 "d" "x" (by decide)⟩

/-- C2: every message processed by the drain loop incurs at most maxRetries
provider calls, and all of those calls use the one provider index that was
current when its processing began. -/
theorem claim2_retry_bound (cfg : Config) (o : Nat → AttemptResult) (clock : Nat → Nat)
    (fuel : Nat) (s : ServiceState) (callIdx clockIdx : Nat) (r : Resolution)
    (hr : r ∈ (processQueue cfg o clock fuel s callIdx clockIdx).res) :
    r.outcome.calls.length ≤ cfg.maxRetries ∧
    ∀ x ∈ r.outcome.calls, x = r.startCursor := by
  obtain ⟨-, ih2, -⟩ := processQueue_spec cfg o clock fuel s callIdx clockIdx _ rfl
  obtain ⟨⟨j, hj⟩, -⟩ := ih2 r hr
  constructor
  · rw [hj, trySendWithRetries_calls, List.length_replicate]
    omega
  · intro x hx
    rw [hj] at hx
    exact trySendLoop_calls_mem cfg.maxRetries cfg.providers.length o cfg.maxRetries 0
      r.startCursor j x hx

theorem claim2_witness :
    (⟨"m1", 0, ⟨⟨true, "Email sent successfully."⟩, [.call 0], 0⟩, some 1⟩ : Resolution) ∈
      (processQueue ⟨["p1"], 3, 5⟩ (fun _ => .ok) (fun i => i) 2
        ⟨0, [], [], [("m1", "x")], []⟩ 0 0).res ∧
    ((⟨"m1", 0, ⟨⟨true, "Email sent successfully."⟩, [.call 0], 0⟩,
        some 1⟩ : Resolution).outcome.calls.length ≤ 3 ∧
      ∀ x ∈ (⟨"m1", 0, ⟨⟨true, "Email sent successfully."⟩, [.call 0], 0⟩,
        some 1⟩ : Resolution).outcome.calls, x = 0) :=
  ⟨by decide,
    claim2_retry_bound ⟨["p1"], 3, 5⟩ (fun _ => .ok) (fun i => i) 2
      ⟨0, [], [], [("m1", "x")], []⟩ 0 0
      ⟨"m1", 0, ⟨⟨true, "Email sent successfully."⟩, [.call 0], 0⟩, some 1⟩ (by decide)⟩

/-- C3: when a message of the drain loop exhausts its maxRetries attempts
(its resolution is a failure), the cursor it leaves behind is the successor
of its start cursor modulo the provider count, all maxRetries calls were
used, and the next message processed starts its attempts at that advanced
cursor. -/
theorem claim3_failover_after_exhaustion (cfg : Config) (o : Nat → AttemptResult)
    (clock : Nat → Nat) (fuel : Nat) (s : ServiceState) (callIdx clockIdx k : Nat)
    (r : Resolution) (hmr : 1 ≤ cfg.maxRetries)
    (hr : (processQueue cfg o clock fuel s callIdx clockIdx).res[k]? = some r)
    (hfail : r.outcome.result.success = false) :
    r.outcome.cursorAfter = (r.startCursor + 1) % cfg.providers.length ∧
    r.outcome.calls.length = cfg.maxRetries ∧
    ∀ r2 : Resolution, (processQueue cfg o clock fuel s callIdx clockIdx).res[k + 1]? = some r2 →
      r2.startCursor = (r.startCursor + 1) % cfg.providers.length := by
  obtain ⟨ih1, ih2, -⟩ := processQueue_spec cfg o clock fuel s callIdx clockIdx _ rfl
  have hmem : r ∈ (processQueue cfg o clock fuel s callIdx clockIdx).res :=
    List.getElem?_mem hr
  obtain ⟨⟨j, hj⟩, -⟩ := ih2 r hmem
  have hfail2 : (trySendWithRetries cfg.maxRetries cfg.providers.length o
      r.startCursor j).result.success = false := by
    rw [← hj]; exact hfail
  obtain ⟨hca, hlen⟩ := trySendWithRetries_failure cfg.maxRetries cfg.providers.length o
    r.startCursor j hmr hfail2
  refine ⟨by rw [hj]; exact hca, by rw [hj]; exact hlen, ?_⟩
  intro r2 hr2
  have := chained_consecutive _ _ _ ih1 k r r2 hr hr2
  rw [this, hj, hca]

theorem claim3_witness :
    (⟨"m1", 0, ⟨⟨false, "All attempts failed."⟩, [.call 0], 1⟩,
        none⟩ : Resolution).outcome.cursorAfter = (0 + 1) % 2 ∧
    (⟨"m1", 0, ⟨⟨false, "All attempts failed."⟩, [.call 0], 1⟩,
        none⟩ : Resolution).outcome.calls.length = 1 ∧
    (⟨"m2", 1, ⟨⟨false, "All attempts failed."⟩, [.call 1], 0⟩,
        none⟩ : Resolution).startCursor = (0 + 1) % 2 := by
  have h := claim3_failover_after_exhaustion ⟨["p1", "p2"], 1, 5⟩ (fun _ => .fault "e")
    (fun i => i) 3 ⟨0, [], [], [("m1", "x"), ("m2", "y")], []⟩ 0 0 0
    ⟨"m1", 0, ⟨⟨false, "All attempts failed."⟩, [.call 0], 1⟩, none⟩
    (by decide) (by decide) (by decide)
  exact ⟨h.1, h.2.1,
    h.2.2 ⟨"m2", 1, ⟨⟨false, "All attempts failed."⟩, [.call 1], 0⟩, none⟩ (by decide)⟩

/-- C4: the backoff sleeps of one retry run are exactly 2 ^ (i + 1) * 100 ms
for i = 0, 1, ... (that is, 2 ^ i * 100 ms before 1-based attempt i + 1),
strictly increasing; there are at most maxRetries - 1 of them (none after
the final attempt) and at most one per failed call (none after a success). -/
theorem claim4_backoff_monotone (mr N : Nat) (o : Nat → AttemptResult) (cursor ci : Nat) :
    (trySendWithRetries mr N o cursor ci).waits =
      (List.range (min (failStreak o ci mr) (mr - 1))).map (fun i => 2 ^ (i + 1) * 100) ∧
    (trySendWithRetries mr N o cursor ci).waits.Pairwise (· < ·) ∧
    (trySendWithRetries mr N o cursor ci).waits.length ≤ mr - 1 ∧
    (trySendWithRetries mr N o cursor ci).waits.length ≤ failStreak o ci mr := by
  have hw := trySendWithRetries_waits mr N o cursor ci
  have hw2 : (trySendWithRetries mr N o cursor ci).waits =
      (List.range (min (failStreak o ci mr) (mr - 1))).map (fun i => 2 ^ (i + 1) * 100) := by
    rw [hw]
    apply List.map_congr_left
    intro i _
    rw [Nat.add_comm 1 i]
  refine ⟨hw2, ?_, ?_, ?_⟩
  · rw [hw2]
    refine List.Pairwise.map _ ?_ (List.pairwise_lt_range _)
    intro a b hab
    have h2 : 2 ^ (a + 1) < 2 ^ (b + 1) := Nat.pow_lt_pow_right (by omega) (by omega)
    omega
  · rw [hw2, List.length_map, List.length_range]
    omega
  · rw [hw2, List.length_map, List.length_range]
    omega


/-- C5: with a monotone clock and a fresh ledger, the recorded successful
send instants of a drain never exceed the configured cap in any sliding
60-second window (the admission check prunes entries older than 60000 ms
relative to now and admits only strictly below the cap); an instant is
recorded exactly when a message resolved successfully; and every
rate-limit suspension of the whole drain loop lasts 1000 ms. -/
theorem claim5_rate_limit_correct (cfg : Config) (o : Nat → AttemptResult) (clock : Nat → Nat)
    (fuel : Nat) (s : ServiceState) (callIdx clockIdx : Nat)
    (hmono : ∀ i j, i ≤ j → clock i ≤ clock j)
    (hledger : s.lastSentTimestamps = []) :
    (∀ w, windowCount ((processQueue cfg o clock fuel s callIdx clockIdx).res.filterMap
        Resolution.sentAt) w ≤ cfg.rateLimit) ∧
    (∀ r ∈ (processQueue cfg o clock fuel s callIdx clockIdx).res,
        r.sentAt.isSome = r.outcome.result.success) ∧
    (∀ d ∈ (processQueue cfg o clock fuel s callIdx clockIdx).rlSleeps, d = 1000) := by
  obtain ⟨-, ih2, -, -, -, -, ih7, -⟩ :=
    processQueue_spec cfg o clock fuel s callIdx clockIdx _ rfl
  refine ⟨?_, fun r hr => (ih2 r hr).2, ih7⟩
  intro w
  have := processQueue_rate cfg o clock hmono fuel s callIdx clockIdx [] 0
    (Nat.zero_le _) (by simp [hledger]) (by intro w2; simp [windowCount]) w
  simpa using this

theorem claim5_witness :
    windowCount ((processQueue ⟨["p1"], 3, 1⟩ (fun _ => .ok) (fun i => i) 3
      ⟨0, [], [], [("m1", "x"), ("m2", "y")], []⟩ 0 0).res.filterMap
        Resolution.sentAt) 0 ≤ 1 :=
  (claim5_rate_limit_correct ⟨["p1"], 3, 1⟩ (fun _ => .ok) (fun i => i) 3
    ⟨0, [], [], [("m1", "x"), ("m2", "y")], []⟩ 0 0 (fun _ _ h => h) rfl).1 0

/-- C6 as stated is false at this input: on a fresh (non-duplicate) id,
sendEmail returns the value of this.processQueue(), which is undefined —
not a record with success and message fields. -/
theorem claim6_counterexample :
    (sendEmail ⟨["p1"], 3, 5⟩ (fun _ => .ok) (fun i => i) 2 initState 0 0 "m1" "x").1 =
      none := by decide

/-- C6 amended: sendEmail returns the record with success and message
fields only on the duplicate-prevented path; on a fresh id it appends the
message to the queue, performs the full drain of the current backlog within
the call (the call returns the result of processQueue on the enqueued
state, so the queue is empty when the drain completed), and returns no
record (undefined). -/
theorem claim6_submit_return_shape (cfg : Config) (o : Nat → AttemptResult) (clock : Nat → Nat)
    (fuel : Nat) (s : ServiceState) (callIdx clockIdx : Nat) (emailId emailDetails : String) :
    (emailId ∈ s.sentEmails →
      sendEmail cfg o clock fuel s callIdx clockIdx emailId emailDetails =
        (some { success := true, message := "Duplicate email prevented." },
          ⟨s, callIdx, clockIdx, [], [], s.emailQueue.isEmpty⟩)) ∧
    (emailId ∉ s.sentEmails →
      (sendEmail cfg o clock fuel s callIdx clockIdx emailId emailDetails).1 = none ∧
      (sendEmail cfg o clock fuel s callIdx clockIdx emailId emailDetails).2 =
        processQueue cfg o clock fuel
          { s with emailQueue := s.emailQueue ++ [(emailId, emailDetails)] } callIdx clockIdx ∧
      ((sendEmail cfg o clock fuel s callIdx clockIdx emailId emailDetails).2.completed = true →
        (sendEmail cfg o clock fuel s callIdx clockIdx emailId
          emailDetails).2.final.emailQueue = [])) := by
  constructor
  · intro h
    simp [sendEmail, h]
  · intro h
    have heq : (sendEmail cfg o clock fuel s callIdx clockIdx emailId emailDetails).2 =
        processQueue cfg o clock fuel
          { s with emailQueue := s.emailQueue ++ [(emailId, emailDetails)] }
          callIdx clockIdx := by
      simp [sendEmail, h]
    obtain ⟨-, -, -, -, -, ih6, -⟩ := processQueue_spec cfg o clock fuel
      { s with emailQueue := s.emailQueue ++ [(emailId, emailDetails)] } callIdx clockIdx _ rfl
    refine ⟨by simp [sendEmail, h], heq, ?_⟩
    intro hc
    rw [heq] at hc ⊢
    exact ih6 hc

theorem claim6_witness :
    (sendEmail ⟨["p1"], 3, 5⟩ (fun _ => .ok) (fun i => i) 2 initState 0 0 "m2" "y").1 =
      none :=
  ((claim6_submit_return_shape ⟨["p1"], 3, 5⟩ (fun _ => .ok) (fun i => i) 2 initState 0 0
    "m2" "y").2 (by decide)).1

/-- C7: when the drain completes, it has popped and fully resolved exactly
one entry per admitted iteration in arrival order: the resolutions match
the initial queue ids in FIFO order, and the status table consists of the
terminal outcomes written in that processing order (most recent first) in
front of the prior table, so an earlier message has its terminal status
recorded no later than a later one. -/
theorem claim7_fifo_order (cfg : Config) (o : Nat → AttemptResult) (clock : Nat → Nat)
    (fuel : Nat) (s : ServiceState) (callIdx clockIdx : Nat)
    (hc : (processQueue cfg o clock fuel s callIdx clockIdx).completed = true) :
    (processQueue cfg o clock fuel s callIdx clockIdx).res.map Resolution.emailId =
      s.emailQueue.map Prod.fst ∧
    (processQueue cfg o clock fuel s callIdx clockIdx).final.status =
      ((processQueue cfg o clock fuel s callIdx clockIdx).res.map
        (fun r => (r.emailId, r.outcome.result))).reverse ++ s.status := by
  obtain ⟨-, -, ih3, ih4, -⟩ := processQueue_spec cfg o clock fuel s callIdx clockIdx _ rfl
  exact ⟨ih3 hc, ih4⟩

theorem claim7_witness :
    (processQueue ⟨["p1"], 3, 5⟩ (fun _ => .ok) (fun i => i) 2
      ⟨0, [], [], [("a", "x"), ("b", "y")], []⟩ 0 0).res.map Resolution.emailId =
      (⟨0, [], [], [("a", "x"), ("b", "y")], []⟩ : ServiceState).emailQueue.map Prod.fst ∧
    (processQueue ⟨["p1"], 3, 5⟩ (fun _ => .ok) (fun i => i) 2
      ⟨0, [], [], [("a", "x"), ("b", "y")], []⟩ 0 0).final.status =
      ((processQueue ⟨["p1"], 3, 5⟩ (fun _ => .ok) (fun i => i) 2
        ⟨0, [], [], [("a", "x"), ("b", "y")], []⟩ 0 0).res.map
          (fun r => (r.emailId, r.outcome.result))).reverse ++
        (⟨0, [], [], [("a", "x"), ("b", "y")], []⟩ : ServiceState).status :=
  claim7_fifo_order ⟨["p1"], 3, 5⟩ (fun _ => .ok) (fun i => i) 2
    ⟨0, [], [], [("a", "x"), ("b", "y")], []⟩ 0 0 (by decide)

/-- C8: a faulting provider call and an unsuccessful response are handled
identically — any two oracles that agree on which calls succeed yield
exactly equal outcomes, backoffs, cursor moves and results — and
trySendWithRetries never propagates an exception: it always returns one of
the two records, and a completed drain resolved every queue entry
regardless of outcomes. -/
theorem claim8_fault_equals_rejected (mr N : Nat) (o1 o2 : Nat → AttemptResult)
    (cursor ci : Nat) (cfg : Config) (o : Nat → AttemptResult) (clock : Nat → Nat)
    (fuel : Nat) (s : ServiceState) (callIdx clockIdx : Nat) :
    ((∀ k, (o1 k).isOk = (o2 k).isOk) →
      trySendWithRetries mr N o1 cursor ci = trySendWithRetries mr N o2 cursor ci) ∧
    ((trySendWithRetries mr N o1 cursor ci).result =
        { success := true, message := "Email sent successfully." } ∨
      (trySendWithRetries mr N o1 cursor ci).result =
        { success := false, message := "All attempts failed." }) ∧
    ((processQueue cfg o clock fuel s callIdx clockIdx).completed = true →
      (processQueue cfg o clock fuel s callIdx clockIdx).res.length =
        s.emailQueue.length) := by
  refine ⟨?_, ?_, ?_⟩
  · intro hoo
    exact trySendLoop_congr mr N o1 o2 hoo mr 0 cursor ci
  · rw [trySendWithRetries_result]
    by_cases h : failStreak o1 ci mr < mr <;> simp [h]
  · intro hc
    obtain ⟨-, -, ih3, -⟩ := processQueue_spec cfg o clock fuel s callIdx clockIdx _ rfl
    have := congrArg List.length (ih3 hc)
    simpa using this

theorem claim8_witness :
    trySendWithRetries 3 2 (fun _ => .rejected "mail rejected") 0 0 =
      trySendWithRetries 3 2 (fun _ => .fault "transport down") 0 0 :=
  (claim8_fault_equals_rejected 3 2 (fun _ => .rejected "mail rejected")
    (fun _ => .fault "transport down") 0 0 ⟨["p1"], 3, 5⟩ (fun _ => .ok) (fun i => i) 0
    initState 0 0).1 (fun _ => rfl)

/-- C9: sentEmails ends up containing exactly the initial members plus the
ids whose recorded outcome was a success (so it grows monotonically and a
failed resolution adds nothing); an id absent from sentEmails — as after a
recorded failure — re-enters the pipeline on resubmission, and its fresh
resolution overwrites the status table entry for that id. -/
theorem claim9_sent_set_exact (cfg : Config) (o : Nat → AttemptResult) (clock : Nat → Nat)
    (fuel : Nat) (s : ServiceState) (callIdx clockIdx : Nat) :
    (∀ x, x ∈ (processQueue cfg o clock fuel s callIdx clockIdx).final.sentEmails ↔
      x ∈ s.sentEmails ∨ ∃ r ∈ (processQueue cfg o clock fuel s callIdx clockIdx).res,
        r.emailId = x ∧ r.outcome.result.success = true) ∧
    (∀ x ∈ s.sentEmails,
      x ∈ (processQueue cfg o clock fuel s callIdx clockIdx).final.sentEmails) ∧
    (∀ emailId emailDetails, emailId ∉ s.sentEmails → s.emailQueue = [] →
      (sendEmail cfg o clock fuel s callIdx clockIdx emailId emailDetails).1 = none ∧
      ((sendEmail cfg o clock fuel s callIdx clockIdx emailId
          emailDetails).2.completed = true →
        ∃ r : Resolution,
          (sendEmail cfg o clock fuel s callIdx clockIdx emailId emailDetails).2.res = [r] ∧
          r.emailId = emailId ∧
          statusOf (sendEmail cfg o clock fuel s callIdx clockIdx emailId
            emailDetails).2.final emailId = some r.outcome.result)) := by
  obtain ⟨-, -, -, -, ih5, -⟩ := processQueue_spec cfg o clock fuel s callIdx clockIdx _ rfl
  refine ⟨ih5, fun x hx => (ih5 x).mpr (Or.inl hx), ?_⟩
  intro emailId emailDetails hnot hq
  have heq : (sendEmail cfg o clock fuel s callIdx clockIdx emailId emailDetails).2 =
      processQueue cfg o clock fuel
        { s with emailQueue := [(emailId, emailDetails)] } callIdx clockIdx := by
    simp [sendEmail, hnot, hq]
  obtain ⟨-, -, ih3b, ih4b, -⟩ := processQueue_spec cfg o clock fuel
    { s with emailQueue := [(emailId, emailDetails)] } callIdx clockIdx _ rfl
  refine ⟨by simp [sendEmail, hnot], ?_⟩
  intro hc
  rw [heq] at hc ⊢
  have hmap := ih3b hc
  rcases hres : (processQueue cfg o clock fuel
      { s with emailQueue := [(emailId, emailDetails)] } callIdx clockIdx).res with _ | ⟨r, rest⟩
  · rw [hres] at hmap
    simp at hmap
  · rw [hres] at hmap
    simp at hmap
    obtain ⟨hrid, hrest⟩ := hmap
    subst hrest
    refine ⟨r, rfl, hrid, ?_⟩
    rw [hres] at ih4b
    simp only [statusOf]
    rw [ih4b]
    simp [hrid, List.lookup]

theorem claim9_witness :
    ("a" ∈ (processQueue ⟨["p1"], 3, 5⟩ (fun _ => .ok) (fun i => i) 1
      ⟨0, [], ["a"], [], []⟩ 0 0).final.sentEmails) ∧
    (sendEmail ⟨["p1"], 3, 5⟩ (fun _ => .ok) (fun i => i) 2
      ⟨0, [("f", ⟨false, "All attempts failed."⟩)], [], [], []⟩ 0 0 "f" "x").1 = none :=
  ⟨(claim9_sent_set_exact ⟨["p1"], 3, 5⟩ (fun _ => .ok) (fun i => i) 1
      ⟨0, [], ["a"], [], []⟩ 0 0).2.1 "a" (by decide),
   ((claim9_sent_set_exact ⟨["p1"], 3, 5⟩ (fun _ => .ok) (fun i => i) 2
      ⟨0, [("f", ⟨false, "All attempts failed."⟩)], [], [], []⟩ 0 0).2.2 "f" "x"
      (by decide) rfl).1⟩

/-- C10: with a non-empty provider list the cursor invariant holds: the
constructor starts the cursor at 0, below the provider count; the drain
loop preserves the bound — switchProvider takes the successor modulo the
list length and nothing else moves the cursor — so every resolution starts
in bounds and every provider lookup during an attempt is in bounds. -/
theorem claim10_cursor_in_bounds (cfg : Config) (o : Nat → AttemptResult) (clock : Nat → Nat)
    (fuel : Nat) (s : ServiceState) (callIdx clockIdx : Nat)
    (hne : cfg.providers ≠ []) (hcur : s.currentProviderIndex < cfg.providers.length) :
    initState.currentProviderIndex < cfg.providers.length ∧
    (processQueue cfg o clock fuel s callIdx clockIdx).final.currentProviderIndex <
      cfg.providers.length ∧
    (∀ r ∈ (processQueue cfg o clock fuel s callIdx clockIdx).res,
      r.startCursor < cfg.providers.length ∧
      ∀ x ∈ r.outcome.calls, x < cfg.providers.length) ∧
    (∀ idx, idx < cfg.providers.length →
      switchProvider cfg.providers.length idx < cfg.providers.length) := by
  have hN : 0 < cfg.providers.length := List.length_pos.mpr hne
  obtain ⟨-, ih2, -, -, -, -, -, ih8⟩ :=
    processQueue_spec cfg o clock fuel s callIdx clockIdx _ rfl
  obtain ⟨hfin, hres⟩ := ih8 hN hcur
  refine ⟨by simpa [initState] using hN, hfin, ?_, fun idx _ => Nat.mod_lt _ hN⟩
  intro r hr
  refine ⟨hres r hr, ?_⟩
  intro x hx
  obtain ⟨⟨j, hj⟩, -⟩ := ih2 r hr
  rw [hj] at hx
  have hxc := trySendLoop_calls_mem cfg.maxRetries cfg.providers.length o cfg.maxRetries 0
    r.startCursor j x hx
  rw [hxc]
  exact hres r hr

theorem claim10_witness :
    initState.currentProviderIndex < 2 ∧
    (processQueue ⟨["p1", "p2"], 1, 5⟩ (fun _ => .fault "e") (fun i => i) 3
      ⟨0, [], [], [("m1", "x"), ("m2", "y")], []⟩ 0 0).final.currentProviderIndex < 2 :=
  ⟨(claim10_cursor_in_bounds ⟨["p1", "p2"], 1, 5⟩ (fun _ => .fault "e") (fun i => i) 3
      ⟨0, [], [], [("m1", "x"), ("m2", "y")], []⟩ 0 0 (by decide) (by decide)).1,
   (claim10_cursor_in_bounds ⟨["p1", "p2"], 1, 5⟩ (fun _ => .fault "e") (fun i => i) 3
      ⟨0, [], [], [("m1", "x"), ("m2", "y")], []⟩ 0 0 (by decide) (by decide)).2.1⟩

end EmailService
